import Mathlib

/-!
Verification development for the QRApp back end (FastAPI + Beanie/MongoDB).

The definitions below are a shallow embedding of the routes and service
helpers of the repository: MongoDB documents become Lean structures,
collections become lists of documents, and each route handler becomes a
function from the relevant collections and the caller's token state to an
`Except` of an API error and the updated collections.  Document ids
(`PydanticObjectId`) are modelled as natural numbers; `$id` link fields
become plain ids.

Pieces of the repository that the routes call but whose files are not part
of the source tree (the `RequestStatus` enum of `app/schema/request.py`,
the JWT helpers of `app/core/security.py`, the `SessionManager` of
`app/db/__init__.py`, and `get_actions` of `app/models/base.py`) are
modelled from the specification; each such definition carries a doc
comment saying so.
-/

namespace QRApp

/-- Document ids (`PydanticObjectId`) are modelled as naturals. -/
abbrev Id := Nat

/-- The error kinds raised by the route handlers
(`app/common/http_exception.py` constructors used in the routes). -/
inductive ApiError where
  | NotFound
  | Forbidden
  | Unauthorized
  | BadRequest
deriving DecidableEq, Repr

/-- Modelled from the spec: `RequestStatus` of `app/schema/request.py` is not
in the source tree; the spec gives the lifecycle
WAITING → IN_PROGRESS → COMPLETED (terminal), transitions only forward. -/
inductive RequestStatus where
  | WAITING
  | IN_PROGRESS
  | COMPLETED
deriving DecidableEq, Repr

/-- Modelled from the spec: `RequestStatus.next()` advances one step along
WAITING → IN_PROGRESS → COMPLETED; COMPLETED is terminal. -/
def RequestStatus.next : RequestStatus → RequestStatus
  | .WAITING => .IN_PROGRESS
  | .IN_PROGRESS => .COMPLETED
  | .COMPLETED => .COMPLETED

/-- A `Request` document (`app/models/request.py` fields used by
`process_request`): id, owning business and branch, status, assignee. -/
structure RequestDoc where
  rid : Id
  business : Id
  branch : Id
  status : RequestStatus
  staff : Option Id
deriving DecidableEq, Repr

/-- The token state a handler reads from `request.state` after
`login_required`: caller id, tenant scope, branch scope. -/
structure CallerState where
  user_id : Id
  user_scope : Id
  user_branch : Option Id
deriving DecidableEq, Repr

/-- `requestService.find(id)`: `Document.get` by id. -/
def findRequest (db : List RequestDoc) (i : Id) : Option RequestDoc :=
  db.find? (fun r => r.rid == i)

/-- The outcome of the read/check phase of `process_request`
(everything before the `requestService.update` call). -/
inductive ProcOutcome where
  | fail (e : ApiError)
  | handled
  | proceed (next : RequestStatus)
deriving DecidableEq, Repr

/-- The read/check phase of `process_request`
(`app/api/router/request/__init__.py`): find the request by id, reject a
tenant mismatch with NotFound, reject a branch mismatch with Forbidden,
report `handled` when the request is COMPLETED or held by another staff,
otherwise decide to advance to `status.next()`. -/
def processDecision (db : List RequestDoc) (c : CallerState) (i : Id) : ProcOutcome :=
  match findRequest db i with
  | none => .fail .NotFound
  | some r =>
    if c.user_scope ≠ r.business then .fail .NotFound
    else if (match c.user_branch with
             | some b => r.branch != b
             | none => false : Bool) then .fail .Forbidden
    else if r.status = .COMPLETED ∨ (r.status ≠ .WAITING ∧ r.staff ≠ some c.user_id) then .handled
    else .proceed r.status.next

/-- The write phase of `process_request`: `requestService.update(id, ...)`
(`app/service/base.py`, `update`) fetches the document by id, sets the new
status and staff, and saves — the write is keyed on the id alone, with no
condition on the current status or assignee. -/
def writeRequest (db : List RequestDoc) (i : Id) (st : RequestStatus) (staffId : Id) :
    List RequestDoc :=
  db.map (fun r => if r.rid = i then { r with status := st, staff := some staffId } else r)

/-- A full sequential run of `process_request`: the decision read phase
followed (when it decides to proceed) by the unconditional write. -/
def process_request (db : List RequestDoc) (c : CallerState) (i : Id) :
    Except ApiError (Bool × List RequestDoc) :=
  match processDecision db c i with
  | .fail e => .error e
  | .handled => .ok (false, db)
  | .proceed st => .ok (true, writeRequest db i st c.user_id)

/-- The value a caller receives from one interleaved run. -/
def outcomeResult : ProcOutcome → Except ApiError Bool
  | .fail e => .error e
  | .handled => .ok false
  | .proceed _ => .ok true

/-- Two concurrent `process_request` calls under the schedule
read₁, read₂, write₁, write₂: both transactions read the same snapshot of
the collection (MongoDB transactions give snapshot reads; neither sees the
other's uncommitted write), then each applies its unconditional id-keyed
write.  Returns (caller 1's result, caller 2's result, final collection). -/
def raceTwo (db : List RequestDoc) (c₁ c₂ : CallerState) (i : Id) :
    Except ApiError Bool × Except ApiError Bool × List RequestDoc :=
  let d₁ := processDecision db c₁ i
  let d₂ := processDecision db c₂ i
  let db₁ := match d₁ with
    | .proceed st => writeRequest db i st c₁.user_id
    | _ => db
  let db₂ := match d₂ with
    | .proceed st => writeRequest db₁ i st c₂.user_id
    | _ => db₁
  (outcomeResult d₁, outcomeResult d₂, db₂)

/-- Claim C1: on a WAITING request, two concurrent `process_request` callers
whose reads both see the WAITING snapshot both return true, and the second
unconditional write silently overwrites the first claimant's assignment —
the code performs a separate read followed by an id-keyed unconditional
write, so the claimed "exactly one caller commits" fails. -/
theorem C1_process_request_race_both_commit :
    raceTwo [⟨1, 10, 20, .WAITING, none⟩] ⟨100, 10, none⟩ ⟨200, 10, none⟩ 1 =
      (.ok true, .ok true, [⟨1, 10, 20, .IN_PROGRESS, some 200⟩]) := by
  rfl

/-! ## Token service (sign-in / sign-out / refresh) -/

/-- The token payload built by `sign_in` and `reset_password`
(`app/api/router/auth/__init__.py`): user id, tenant scope (nullable),
branch scope (nullable), role, resolved permission codes. -/
structure TokenPayload where
  user_id : Id
  user_scope : Option Id
  user_branch : Option Id
  user_role : String
  user_permissions : List String
deriving DecidableEq, Repr

/-- Modelled from the spec: `app/core/security.py` (the `ACCESS_JWT` /
`REFRESH_JWT` objects) is not in the source tree.  A signed token is
modelled as its claim set: the payload plus the `exp` claim; forging a
token with a bad signature is outside the model, so `decode` on a value of
this type can only fail by expiry. -/
structure Jwt where
  payload : TokenPayload
  exp : Nat
deriving DecidableEq, Repr

/-- The two token-validation failures the spec distinguishes. -/
inductive TokenErr where
  | Expired
  | Invalid
deriving DecidableEq, Repr

/-- `ACCESS_TOKEN_EXPIRE_MINUTES` (`app/core/config.py`). -/
def ACCESS_TOKEN_EXPIRE_MINUTES : Nat := 60 * 30

/-- `REFRESH_TOKEN_EXPIRE_MINUTES` (`app/core/config.py`). -/
def REFRESH_TOKEN_EXPIRE_MINUTES : Nat := 60 * 60

/-- Modelled from the spec: `JWT.encode(payload, expires_delta)` stamps the
payload with an `exp` claim at `now + lifetime` (minutes) and signs it. -/
def jwtEncode (p : TokenPayload) (now lifetime : Nat) : Jwt :=
  ⟨p, now + lifetime⟩

/-- Modelled from the spec: `JWT.decode` checks the signature and the `exp`
claim and returns the full claim set (payload and `exp`); a clock past
`exp` yields the Expired error. -/
def jwtDecode (t : Jwt) (now : Nat) : Except TokenErr (TokenPayload × Nat) :=
  if t.exp ≤ now then .error .Expired else .ok (t.payload, t.exp)

/-- Modelled from the spec: the `SessionManager` store of
`app/db/__init__.py` (not in the source tree) — one refresh-token value
keyed by user id. -/
abbrev SessionStore := List (Id × Jwt)

/-- Modelled from the spec: `SessionManager.get(user_id)`. -/
def sessionGet (s : SessionStore) (uid : Id) : Option Jwt :=
  (s.find? (fun e => e.1 == uid)).map (fun e => e.2)

/-- Modelled from the spec: `SessionManager.sign_in(user_id, token)`
overwrites the user's single session entry. -/
def sessionSignIn (s : SessionStore) (uid : Id) (t : Jwt) : SessionStore :=
  (uid, t) :: s.filter (fun e => e.1 ≠ uid)

/-- Modelled from the spec: `SessionManager.delete(user_id)` clears the
user's session entry. -/
def sessionDelete (s : SessionStore) (uid : Id) : SessionStore :=
  s.filter (fun e => e.1 ≠ uid)

/-- `sign_out` (`app/api/router/auth/__init__.py`): the presented refresh
token must equal the stored session token, else Forbidden; on success the
session entry is deleted. -/
def sign_out (store : SessionStore) (uid : Id) (presented : Jwt) :
    Except ApiError SessionStore :=
  if sessionGet store uid ≠ some presented then .error .Forbidden
  else
    let store' := sessionDelete store uid
    if (sessionGet store' uid).isSome then .error .Forbidden
    else .ok store'

/-- The access/refresh pair returned by the auth routes. -/
structure TokenPair where
  access_token : Jwt
  refresh_token : Jwt
deriving DecidableEq, Repr

/-- `refresh_token` (`app/api/router/auth/__init__.py`): decode the
presented refresh token, drop the `exp` claim (`payload.pop("exp")`),
re-encode an access token from the remaining payload, and return it next
to the very token that was presented.  The handler takes no session store:
the route never consults `SessionManager`. -/
def refresh_token (now : Nat) (presented : Jwt) : Except TokenErr TokenPair :=
  match jwtDecode presented now with
  | .error e => .error e
  | .ok (payload, _) =>
      .ok ⟨jwtEncode payload now ACCESS_TOKEN_EXPIRE_MINUTES, presented⟩

/-- A concrete payload for the sign-out/refresh scenario. -/
def c2Payload : TokenPayload :=
  ⟨7, some 10, none, "BusinessOwner", ["view.order"]⟩

/-- The refresh token issued to user 7 at time 0 in the scenario. -/
def c2Refresh : Jwt := jwtEncode c2Payload 0 REFRESH_TOKEN_EXPIRE_MINUTES

/-- Claim C2: user 7 signs in at time 0 (session stored), signs out (the
session entry for the presented token is cleared), and then presents the
same cleared refresh token at time 5.  The refresh route never consults the
session store, so instead of failing with an authorization error it
happily issues a fresh access token. -/
theorem C2_refresh_after_sign_out_succeeds :
    sign_out (sessionSignIn [] 7 c2Refresh) 7 c2Refresh = .ok [] ∧
    refresh_token 5 c2Refresh =
      .ok ⟨jwtEncode c2Payload 5 ACCESS_TOKEN_EXPIRE_MINUTES, c2Refresh⟩ := by
  constructor
  · rfl
  · rfl

/-- Claim C8: for every refresh token the clock has not passed, `refresh`
decodes it, strips only the `exp` claim, and issues an access token whose
payload is exactly the presented token's payload (user id, tenant scope,
branch scope, role, permission list) with a fresh access-lifetime `exp`;
the refresh token handed back is the presented one, never rotated. -/
theorem C8_refresh_preserves_payload (now : Nat) (t : Jwt) (h : now < t.exp) :
    refresh_token now t =
      .ok ⟨⟨t.payload, now + ACCESS_TOKEN_EXPIRE_MINUTES⟩, t⟩ := by
  unfold refresh_token jwtDecode jwtEncode
  rw [if_neg (by omega)]

/-- Witness for C8 at a concrete token. -/
theorem C8_refresh_preserves_payload_witness :
    refresh_token 5 c2Refresh =
      .ok ⟨⟨c2Payload, 5 + ACCESS_TOKEN_EXPIRE_MINUTES⟩, c2Refresh⟩ :=
  C8_refresh_preserves_payload 5 c2Refresh (by decide)

/-! ## Document graph and the branch-deletion cascade -/

/-- A `Branch` document (`app/models/branch.py`): id and owning business. -/
structure BranchDoc where
  bid : Id
  business : Id
deriving DecidableEq, Repr

/-- An `Area` document: id, owning branch and business. -/
structure AreaDoc where
  aid : Id
  branch : Id
  business : Id
deriving DecidableEq, Repr

/-- A `ServiceUnit` document (`app/models/service_unit.py`): id, owning
area, branch and business. -/
structure UnitDoc where
  sid : Id
  area : Id
  branch : Id
  business : Id
deriving DecidableEq, Repr

/-- A `User` document (`app/models/user.py` fields the routes touch). -/
structure UserDoc where
  uid : Id
  username : String
  password : String
  role : String
  business : Id
  branch : Option Id
  group : List Id
  permissions : List Id
  available : Bool
deriving DecidableEq, Repr

/-- The collections touched by the branch cascade. -/
structure Shop where
  branches : List BranchDoc
  areas : List AreaDoc
  units : List UnitDoc
  users : List UserDoc
deriving DecidableEq, Repr

/-- The four writes of `delete_branch`'s body
(`app/api/router/branch/__init__.py`), in call order, each tagged with
whether the source passes the transaction's `session` to it:
`branchService.delete(id, session=session)` does, but the three
`delete_many` cascade calls do not. -/
def delete_branch_writes (i : Id) : List (Bool × (Shop → Shop)) :=
  [ (true,  fun s => { s with branches := s.branches.filter (fun b => b.bid != i) }),
    (false, fun s => { s with users := s.users.filter (fun u => u.branch != some i) }),
    (false, fun s => { s with areas := s.areas.filter (fun a => a.branch != i) }),
    (false, fun s => { s with units := s.units.filter (fun u => u.branch != i) }) ]

/-- The state the collections are left in once the surrounding transaction
ends: writes made outside the session always persist; writes made inside
the session persist only if the transaction commits. -/
def runWrites (commit : Bool) (ws : List (Bool × (Shop → Shop))) (s : Shop) : Shop :=
  ws.foldl (fun st w => if w.1 && !commit then st else w.2 st) s

/-- `delete_branch` (`app/api/router/branch/__init__.py`) when its
transaction commits: find the branch in session, NotFound when missing,
Forbidden on a tenant-scope mismatch, then run the four writes. -/
def delete_branch (s : Shop) (userScope : Id) (i : Id) : Except ApiError Shop :=
  match s.branches.find? (fun b => b.bid == i) with
  | none => .error .NotFound
  | some b =>
    if b.business ≠ userScope then .error .Forbidden
    else .ok (runWrites true (delete_branch_writes i) s)

/-- `delete_branch` when the surrounding transaction aborts after the body
ran (storage error or client disconnect at commit time): the in-session
branch delete rolls back, but the session-less cascade writes have already
been applied to the collections and persist. -/
def delete_branch_aborted (s : Shop) (userScope : Id) (i : Id) : Except ApiError Shop :=
  match s.branches.find? (fun b => b.bid == i) with
  | none => .error .NotFound
  | some b =>
    if b.business ≠ userScope then .error .Forbidden
    else .ok (runWrites false (delete_branch_writes i) s)

/-- Claim C3: branch 1 of business 10 has one area; when the transaction
around `delete_branch` aborts, the branch delete (the only write given the
session) rolls back while the cascade's `delete_many` calls — issued
without the session — persist: the observable end state has the parent
branch alive and its area gone, a partial cascade. -/
theorem C3_delete_branch_abort_partial_cascade :
    delete_branch_aborted ⟨[⟨1, 10⟩], [⟨5, 1, 10⟩], [⟨6, 5, 1, 10⟩], []⟩ 10 1 =
      .ok ⟨[⟨1, 10⟩], [], [], []⟩ := by
  rfl

/-- The committed end state of the `delete_branch` body: all four writes
applied. -/
theorem runWrites_delete_branch (s : Shop) (i : Id) :
    runWrites true (delete_branch_writes i) s =
      ⟨s.branches.filter (fun b => b.bid != i),
       s.areas.filter (fun a => a.branch != i),
       s.units.filter (fun u => u.branch != i),
       s.users.filter (fun u => u.branch != some i)⟩ := rfl

/-- Claim C5: whenever `delete_branch` returns successfully (transaction
committed), no surviving area, service unit, or user document still
references the deleted branch id. -/
theorem C5_delete_branch_no_dangling (s : Shop) (scope i : Id) (s' : Shop)
    (h : delete_branch s scope i = .ok s') :
    (∀ a ∈ s'.areas, a.branch ≠ i) ∧
    (∀ u ∈ s'.units, u.branch ≠ i) ∧
    (∀ u ∈ s'.users, u.branch ≠ some i) := by
  unfold delete_branch at h
  cases hfind : s.branches.find? (fun b => b.bid == i) with
  | none => rw [hfind] at h; exact Except.noConfusion h
  | some b =>
    rw [hfind] at h
    dsimp only at h
    split at h
    · exact Except.noConfusion h
    · have hs : s' = runWrites true (delete_branch_writes i) s := by
        injection h with h; exact h.symm
      subst hs
      rw [runWrites_delete_branch]
      refine ⟨?_, ?_, ?_⟩ <;>
        · intro a ha
          simp only [List.mem_filter, bne_iff_ne, ne_eq] at ha
          exact ha.2

/-- Witness for C5: deleting branch 1 of business 10 out of a shop holding
an area, a unit and a staff user bound to it. -/
theorem C5_delete_branch_no_dangling_witness :
    (∀ a ∈ (⟨[], [], [], []⟩ : Shop).areas, a.branch ≠ 1) ∧
    (∀ u ∈ (⟨[], [], [], []⟩ : Shop).units, u.branch ≠ 1) ∧
    (∀ u ∈ (⟨[], [], [], []⟩ : Shop).users, u.branch ≠ some 1) :=
  C5_delete_branch_no_dangling
    ⟨[⟨1, 10⟩], [⟨5, 1, 10⟩], [⟨6, 5, 1, 10⟩], [⟨9, "s", "p", "Staff", 10, some 1, [], [], true⟩]⟩
    10 1 ⟨[], [], [], []⟩ (by rfl)

/-! ## Scope mismatches and the error kind they surface -/

/-- `update_branch` (`app/api/router/branch/__init__.py`): find the branch
by id (NotFound when missing), then compare the branch's business to the
caller's tenant scope — a mismatch raises Forbidden (403), not NotFound —
and on success apply the update to the found branch. -/
def update_branch (branches : List BranchDoc) (userScope : Id) (i : Id) :
    Except ApiError BranchDoc :=
  match branches.find? (fun b => b.bid == i) with
  | none => .error .NotFound
  | some b =>
    if b.business ≠ userScope then .error .Forbidden
    else .ok b

/-- `get_user` (`app/api/router/user/__init__.py`): find the user by id
(NotFound when missing); when the caller carries a tenant scope (non-Admin)
and it differs from the target's business, raise Forbidden (403). -/
def get_user (users : List UserDoc) (userScope : Option Id) (i : Id) :
    Except ApiError UserDoc :=
  match users.find? (fun u => u.uid == i) with
  | none => .error .NotFound
  | some u =>
    match userScope with
    | some sc => if sc ≠ u.business then .error .Forbidden else .ok u
    | none => .ok u

/-- A staff user of business 10 used in the scope-mismatch scenarios. -/
def c4Staff : UserDoc := ⟨5, "staff", "pw", "Staff", 10, some 20, [], [], true⟩

/-- Claim C4 counterexample: a caller of tenant 11 addressing branch 1 of
tenant 10 gets Forbidden from `update_branch`; a caller scoped to tenant 11
reading user 5 of tenant 10 gets Forbidden from `get_user`; and a caller of
the right tenant but the wrong branch gets Forbidden from
`process_request`'s check phase — the claim said these scope mismatches are
always NotFound and never Forbidden. -/
theorem C4_scope_mismatch_forbidden_cex :
    update_branch [⟨1, 10⟩] 11 1 = .error .Forbidden ∧
    get_user [c4Staff] (some 11) 5 = .error .Forbidden ∧
    processDecision [⟨1, 10, 20, .WAITING, none⟩] ⟨100, 10, some 99⟩ 1 =
      .fail .Forbidden := by
  refine ⟨rfl, rfl, rfl⟩

/-- Claim C4 as amended: only `process_request`'s tenant mismatch surfaces
as NotFound; its branch mismatch, and the tenant-scope mismatches of
`update_branch` and `get_user`, surface as Forbidden (403), so entity
existence does leak to out-of-scope callers on those paths. -/
theorem C4_scope_mismatch_error_kinds :
    (∀ (bs : List BranchDoc) (b : BranchDoc) (scope i : Id),
      bs.find? (fun x => x.bid == i) = some b → b.business ≠ scope →
        update_branch bs scope i = .error .Forbidden) ∧
    (∀ (us : List UserDoc) (u : UserDoc) (scope i : Id),
      us.find? (fun x => x.uid == i) = some u → scope ≠ u.business →
        get_user us (some scope) i = .error .Forbidden) ∧
    (∀ (db : List RequestDoc) (r : RequestDoc) (c : CallerState) (i : Id),
      findRequest db i = some r → c.user_scope ≠ r.business →
        processDecision db c i = .fail .NotFound) ∧
    (∀ (db : List RequestDoc) (r : RequestDoc) (c : CallerState) (i b : Id),
      findRequest db i = some r → c.user_scope = r.business →
        c.user_branch = some b → r.branch ≠ b →
        processDecision db c i = .fail .Forbidden) := by
  refine ⟨?_, ?_, ?_, ?_⟩
  · intro bs b scope i hfind hmis
    unfold update_branch
    rw [hfind]
    dsimp only
    rw [if_pos hmis]
  · intro us u scope i hfind hmis
    unfold get_user
    rw [hfind]
    dsimp only
    rw [if_pos hmis]
  · intro db r c i hfind hmis
    unfold processDecision
    rw [hfind]
    dsimp only
    rw [if_pos hmis]
  · intro db r c i b hfind hsc hbr hmis
    unfold processDecision
    rw [hfind]
    dsimp only
    rw [if_neg (by simp [hsc]), hbr]
    dsimp only
    rw [if_pos (by simp [hmis])]

/-- Witness for C4's amended statement at concrete collections. -/
theorem C4_scope_mismatch_error_kinds_witness :
    update_branch [⟨1, 10⟩] 11 1 = .error .Forbidden ∧
    get_user [c4Staff] (some 11) 5 = .error .Forbidden ∧
    processDecision [⟨1, 10, 20, .WAITING, none⟩] ⟨100, 11, none⟩ 1 = .fail .NotFound ∧
    processDecision [⟨1, 10, 20, .WAITING, none⟩] ⟨100, 10, some 99⟩ 1 = .fail .Forbidden :=
  ⟨C4_scope_mismatch_error_kinds.1 [⟨1, 10⟩] ⟨1, 10⟩ 11 1 (by rfl) (by decide),
   C4_scope_mismatch_error_kinds.2.1 [c4Staff] c4Staff 11 5 (by rfl) (by decide),
   C4_scope_mismatch_error_kinds.2.2.1 [⟨1, 10, 20, .WAITING, none⟩] ⟨1, 10, 20, .WAITING, none⟩
     ⟨100, 11, none⟩ 1 (by rfl) (by decide),
   C4_scope_mismatch_error_kinds.2.2.2 [⟨1, 10, 20, .WAITING, none⟩] ⟨1, 10, 20, .WAITING, none⟩
     ⟨100, 10, some 99⟩ 1 99 (by rfl) (by decide) (by rfl) (by decide)⟩

/-! ## Group deletion -/

/-- A `Group` document (`app/models/group.py`): id, owning business,
permission references. -/
structure GroupDoc where
  gid : Id
  business : Id
  permissions : List Id
deriving DecidableEq, Repr

/-- `delete_group` (`app/api/router/group/__init__.py`): find the group by
id and the caller's business scope (NotFound when missing), delete the
group document, and `update_many` over users matching `group.$id == id`
with `$pull {group: {$id: id}}` — users holding the reference get it pulled
from their group list; both writes carry the transaction's session. -/
def delete_group (groups : List GroupDoc) (users : List UserDoc) (userScope : Id) (i : Id) :
    Except ApiError (List GroupDoc × List UserDoc) :=
  match groups.find? (fun g => g.gid == i && g.business == userScope) with
  | none => .error .NotFound
  | some _ =>
    .ok (groups.filter (fun g => g.gid != i),
         users.map (fun u =>
           if i ∈ u.group then { u with group := u.group.filter (fun g => g != i) } else u))

/-- Claim C9: when `delete_group` succeeds, the surviving user collection is
exactly the old one with the deleted group's id filtered out of every
user's group list — every user survives (the map keeps the collection's
length and order), the group reference is removed wherever it was held, and
no other field of any user changes. -/
theorem C9_delete_group_dissociates_users
    (groups : List GroupDoc) (users : List UserDoc) (scope i : Id)
    (out : List GroupDoc × List UserDoc)
    (h : delete_group groups users scope i = .ok out) :
    out.2 = users.map (fun u => { u with group := u.group.filter (fun g => g != i) }) := by
  unfold delete_group at h
  cases hfind : groups.find? (fun g => g.gid == i && g.business == scope) with
  | none => rw [hfind] at h; exact Except.noConfusion h
  | some g =>
    rw [hfind] at h
    dsimp only at h
    have hout : out =
        (groups.filter (fun g => g.gid != i),
         users.map (fun u =>
           if i ∈ u.group then { u with group := u.group.filter (fun g => g != i) } else u)) := by
      injection h with h; exact h.symm
    rw [hout]
    apply List.map_congr_left
    intro u _
    by_cases hm : i ∈ u.group
    · rw [if_pos hm]
    · rw [if_neg hm]
      have hfix : u.group.filter (fun g => g != i) = u.group := by
        apply List.filter_eq_self.mpr
        intro a ha
        simp only [bne_iff_ne, ne_eq, decide_eq_true_eq]
        intro hcontra
        exact hm (hcontra ▸ ha)
      rw [hfix]

/-- Witness for C9: deleting group 3 of business 10 from a collection with
one member user and one non-member user. -/
theorem C9_delete_group_dissociates_users_witness :
    ([⟨8, "a", "p", "Staff", 10, some 1, [], [], true⟩,
      ⟨9, "b", "p", "Staff", 10, some 1, [4], [], true⟩] : List UserDoc) =
      ([⟨8, "a", "p", "Staff", 10, some 1, [3], [], true⟩,
        ⟨9, "b", "p", "Staff", 10, some 1, [4], [], true⟩] : List UserDoc).map
        (fun u => { u with group := u.group.filter (fun g => g != 3) }) :=
  C9_delete_group_dissociates_users [⟨3, 10, []⟩]
    [⟨8, "a", "p", "Staff", 10, some 1, [3], [], true⟩,
     ⟨9, "b", "p", "Staff", 10, some 1, [4], [], true⟩]
    10 3 _ (by rfl)

/-! ## Permission resolution at sign-in -/

/-- A `Permission` document: id and unique code string. -/
structure PermDoc where
  pid : Id
  code : String
deriving DecidableEq, Repr

/-- `permissionService.find_many({"_id": {"$in": ids}})` followed by the
`PermissionProjection` code projection: the permission documents whose id
is among `ids`, mapped to their codes.  Each stored document contributes
once however often its id occurs in `ids`. -/
def permCodesOf (permsCol : List PermDoc) (ids : List Id) : List String :=
  (permsCol.filter (fun p => p.pid ∈ ids)).map (fun p => p.code)

/-- The permission-resolution block of `sign_in`
(`app/api/router/auth/__init__.py`): start from the user's direct
permission ids; when the user has group references, fetch those groups and
extend the id list with the set-union of their permission references; then
look the ids up in the permission collection and project to codes. -/
def signInResolvedPermissions (permsCol : List PermDoc) (groupsCol : List GroupDoc)
    (u : UserDoc) : List String :=
  permCodesOf permsCol
    (if u.group.isEmpty then u.permissions
     else u.permissions ++
       ((groupsCol.filter (fun g => g.gid ∈ u.group)).foldl
         (fun acc g => acc.union g.permissions) []))

/-- The spec's resolution formula, written from the spec's words for
comparison: codes of the direct permissions, unioned with the codes of the
permissions of every group the user belongs to. -/
def specResolvedPermissions (permsCol : List PermDoc) (groupsCol : List GroupDoc)
    (u : UserDoc) : Finset String :=
  (permCodesOf permsCol u.permissions).toFinset ∪
    ((groupsCol.filter (fun g => g.gid ∈ u.group)).map
      (fun g => (permCodesOf permsCol g.permissions).toFinset)).foldr (· ∪ ·) ∅

/-- Membership in `List.union`, stated for the projection spelling the
resolution fold uses. -/
theorem mem_list_union (l₁ l₂ : List Id) (x : Id) :
    x ∈ l₁.union l₂ ↔ x ∈ l₁ ∨ x ∈ l₂ :=
  List.mem_union_iff

/-- Membership in the folded set-union that `sign_in` accumulates over the
user's groups. -/
theorem mem_foldl_union (gs : List GroupDoc) (init : List Id) (x : Id) :
    x ∈ gs.foldl (fun acc g => acc.union g.permissions) init ↔
      x ∈ init ∨ ∃ g ∈ gs, x ∈ g.permissions := by
  induction gs generalizing init with
  | nil => simp
  | cons g gs ih =>
      rw [List.foldl_cons, ih, mem_list_union]
      constructor
      · rintro ((h | h) | ⟨g', hg', hx⟩)
        · exact .inl h
        · exact .inr ⟨g, List.mem_cons_self g gs, h⟩
        · exact .inr ⟨g', List.mem_cons_of_mem g hg', hx⟩
      · rintro (h | ⟨g', hg', hx⟩)
        · exact .inl (.inl h)
        · rcases List.mem_cons.mp hg' with hg' | hg'
          · exact .inl (.inr (hg' ▸ hx))
          · exact .inr ⟨g', hg', hx⟩

/-- Membership in a right fold of finite-set unions over a mapped list. -/
theorem mem_foldr_finset_union (l : List GroupDoc) (f : GroupDoc → Finset String)
    (c : String) :
    c ∈ (l.map f).foldr (· ∪ ·) ∅ ↔ ∃ g ∈ l, c ∈ f g := by
  induction l with
  | nil => simp
  | cons g gs ih => simp [ih]

/-- Membership characterization for `permCodesOf`. -/
theorem mem_permCodesOf (permsCol : List PermDoc) (ids : List Id) (c : String) :
    c ∈ permCodesOf permsCol ids ↔ ∃ p, p ∈ permsCol ∧ p.pid ∈ ids ∧ p.code = c := by
  constructor
  · intro h
    rcases List.mem_map.mp h with ⟨p, hp, hc⟩
    rcases List.mem_filter.mp hp with ⟨hcol, hid⟩
    exact ⟨p, hcol, by simpa using hid, hc⟩
  · rintro ⟨p, hcol, hid, hc⟩
    exact List.mem_map.mpr ⟨p, List.mem_filter.mpr ⟨hcol, by simpa using hid⟩, hc⟩

/-- Claim C6: for every user and every state of the group and permission
collections, the code list `sign_in` resolves (and embeds in the issued
tokens) equals, as a set, the union of the codes of the user's direct
permissions and the codes of the permissions of every group the user
belongs to; empty direct or group sets resolve to the remaining union. -/
theorem C6_sign_in_resolved_permissions_union (permsCol : List PermDoc)
    (groupsCol : List GroupDoc) (u : UserDoc) :
    (signInResolvedPermissions permsCol groupsCol u).toFinset =
      specResolvedPermissions permsCol groupsCol u := by
  ext c
  simp only [signInResolvedPermissions, specResolvedPermissions, List.mem_toFinset,
    Finset.mem_union, mem_foldr_finset_union, mem_permCodesOf]
  by_cases hg : u.group.isEmpty
  · rw [if_pos hg]
    have hnil : u.group = [] := List.isEmpty_iff.mp hg
    constructor
    · rintro ⟨p, hp, hid, hc⟩
      exact .inl ⟨p, hp, hid, hc⟩
    · rintro (⟨p, hp, hid, hc⟩ | ⟨g, hgmem, _⟩)
      · exact ⟨p, hp, hid, hc⟩
      · rcases List.mem_filter.mp hgmem with ⟨_, hdec⟩
        rw [hnil] at hdec
        simp at hdec
  · rw [if_neg hg]
    constructor
    · rintro ⟨p, hpcol, hpid, hc⟩
      rw [List.mem_append, mem_foldl_union] at hpid
      rcases hpid with hdir | hgrp | ⟨g, hgmem, hpin⟩
      · exact .inl ⟨p, hpcol, hdir, hc⟩
      · simp at hgrp
      · exact .inr ⟨g, hgmem, ⟨p, hpcol, hpin, hc⟩⟩
    · rintro (⟨p, hpcol, hdir, hc⟩ | ⟨g, hgmem, ⟨p, hpcol, hpin, hc⟩⟩)
      · refine ⟨p, hpcol, ?_, hc⟩
        rw [List.mem_append]
        exact .inl hdir
      · refine ⟨p, hpcol, ?_, hc⟩
        rw [List.mem_append, mem_foldl_union]
        exact .inr (.inr ⟨g, hgmem, hpin⟩)

/-! ## Role-default permission grants at user creation -/

/-- The document classes registered in `MongoDB` (`app/db/mongo.py`), in
registration order; `initialize` seeds one permission code
`action.lower() + "." + classname.lower()` per action of each class. -/
def documentNames : List String :=
  ["user", "permission", "group", "businesstype", "business", "branch", "area",
   "serviceunit", "category", "subcategory", "product", "request", "order",
   "payment", "plan", "extendorder"]

/-- Modelled from the spec: `get_actions` (`app/models/base.py` is not in
the source tree) yields each class's management actions.  The spec's role
table grants "management" permissions per entity and its example codes are
`action.entity`; the routes of the source tree use exactly the actions
view/create/update/delete on every entity, plus `share.permission` and
`receive.request`, so each class carries the four management actions, with
`share` added for Permission and `receive` for Request. -/
def documentActionsFor (d : String) : List String :=
  ["view", "create", "update", "delete"] ++
    (if d = "permission" then ["share"] else []) ++
    (if d = "request" then ["receive"] else [])

/-- The permission codes seeded by `MongoDB.initialize`
(`app/db/mongo.py`): one `action.classname` code per class and action. -/
def permissionUniverse : List String :=
  documentNames.foldr
    (fun d acc => (documentActionsFor d).map (fun a => a ++ "." ++ d) ++ acc) []

/-- Bool test that string `s` begins with `t` (Python `str.startswith`, the
regex `^` anchor), computed structurally on the character lists so that
concrete instances evaluate. -/
def strHasStart (s t : String) : Bool :=
  t.data.isPrefixOf s.data

/-- Bool test that string `s` ends with `t` (Python `str.endswith`, the
regex `$` anchor). -/
def strHasEnd (s t : String) : Bool :=
  t.data.reverse.isPrefixOf s.data.reverse

/-- The alternatives of the Staff default-grant regex in
`UserService.insert` (`app/service/user.py`). -/
def staffSuffixes : List String :=
  ["area", "branch", "order", "category", "subcategory", "serviceunit", "product"]

/-- The Staff default-grant regex of `UserService.insert`:
`^view.*(area|branch|order|category|subcategory|serviceunit|product)$`.
A code matches iff it starts with "view" and, disjointly after that
four-character anchor, ends with one of the seven alternatives (`.*`
matches any middle, so only the suffix of the code is constrained). -/
def staffPermRegexMatch (code : String) : Bool :=
  strHasStart code "view" &&
    staffSuffixes.any (fun sfx => strHasEnd code sfx && 4 + sfx.length ≤ code.length)

/-- The Admin default-grant regex of `UserService.insert`:
`\.(businesstype|business|plan|group|user|extendorder|permission)$`. -/
def adminPermRegexMatch (code : String) : Bool :=
  ["businesstype", "business", "plan", "group", "user", "extendorder",
   "permission"].any (fun w => strHasEnd code ("." ++ w))

/-- The BusinessOwner default-grant query of `UserService.insert`: `$not`
of the regex `\.(businesstype|business|plan|permission)$`. -/
def ownerPermRegexMatch (code : String) : Bool :=
  !(["businesstype", "business", "plan", "permission"].any
      (fun w => strHasEnd code ("." ++ w)))

/-- The default-grant block of `UserService.insert` (`app/service/user.py`):
permissions start empty; each role's regex query selects its grants from
the seeded permission codes. -/
def userInsertPermissions (seeded : List String) (role : String) : List String :=
  if role = "Admin" then seeded.filter adminPermRegexMatch
  else if role = "BusinessOwner" then seeded.filter ownerPermRegexMatch
  else if role = "Staff" then seeded.filter staffPermRegexMatch
  else []

/-- The grant set claim C7 asserts for Staff: view-only on exactly the
seven entity types. -/
def staffClaimedGrants : List String :=
  ["view.area", "view.branch", "view.order", "view.category", "view.subcategory",
   "view.serviceunit", "view.product"]

/-- Claim C7 counterexample: the Staff regex also matches
`view.extendorder` — the code name of the view permission on
renewal orders — because `extendorder` ends in `order`; a Staff user
therefore receives a view permission on an entity type outside the seven
the claim allows. -/
theorem C7_staff_default_grant_cex :
    "view.extendorder" ∈ userInsertPermissions permissionUniverse "Staff" ∧
    "view.extendorder" ∉ staffClaimedGrants := by
  decide

/-- Claim C7 as amended: the Staff default grant is exactly the view
permissions on the seven claimed entity types plus `view.extendorder`,
whose entity name also ends in one of the regex's suffix alternatives; in
particular every granted code is a view permission, but the entity set is
eight, not seven. -/
theorem C7_staff_default_grant_exact :
    userInsertPermissions permissionUniverse "Staff" =
      ["view.branch", "view.area", "view.serviceunit", "view.category",
       "view.subcategory", "view.product", "view.order", "view.extendorder"] ∧
    ∀ c ∈ userInsertPermissions permissionUniverse "Staff",
      c ∈ staffClaimedGrants ∨ c = "view.extendorder" := by
  refine ⟨by decide, by decide⟩

/-! ## Password hashing -/

/-- The bcrypt primitives (`import bcrypt`), abstract in the model:
`hashpw` (with a fresh salt folded in) and `checkpw`. -/
structure Bcrypt where
  hashpw : String → String
  checkpw : String → String → Bool

/-- A user record as `hash_password`/`change_password` see it: the mutable
password field plus the role the insert hook validates. -/
structure UserRec where
  password : String
  role : String
deriving DecidableEq, Repr

/-- `User.hash_password` (`app/models/user.py`), the before-Insert hook:
reject an unknown role, then bcrypt-hash the password unless it already
starts with "$2b$", in which case the field is left as supplied. -/
def hash_password (bc : Bcrypt) (u : UserRec) : Except String UserRec :=
  if u.role ∉ (["Admin", "BusinessOwner", "Staff"] : List String) then .error "Role"
  else if !(strHasStart u.password "$2b$") then .ok { u with password := bc.hashpw u.password }
  else .ok u

/-- `User.change_password` (`app/models/user.py`): overwrite the stored
password with the bcrypt hash of the new password — but only when the new
password does not start with "$2b$"; otherwise the method returns the user
unchanged, keeping the old stored password. -/
def change_password (bc : Bcrypt) (u : UserRec) (new_password : String) : UserRec :=
  if !(strHasStart new_password "$2b$") then { u with password := bc.hashpw new_password }
  else u

/-- `User.verify_password` (`app/models/user.py`): bcrypt check of the
candidate against the stored field. -/
def verify_password (bc : Bcrypt) (u : UserRec) (password : String) : Bool :=
  bc.checkpw password u.password

/-- A concrete stand-in bcrypt for closed scenarios. -/
def bcFixture : Bcrypt :=
  ⟨fun p => "$2b$12$" ++ p, fun p h => h == "$2b$12$" ++ p⟩

/-- Claim C10 counterexample: `change_password` with a supplied password
that already starts with "$2b$" does not store it verbatim — it stores
nothing at all, silently keeping the previously stored hash, so the stored
field equals neither a hash of the supplied password nor the supplied
password itself. -/
theorem C10_change_password_prefixed_cex :
    (change_password bcFixture ⟨"$2b$12$old", "Staff"⟩ "$2b$12$new").password =
        "$2b$12$old" ∧
    ("$2b$12$old" : String) ≠ "$2b$12$new" := by
  refine ⟨rfl, by decide⟩

/-- Claim C10 as amended: at insert, the stored password is the bcrypt hash
of the supplied one (and carries bcrypt's "$2b$" marker) unless the
supplied password already starts with "$2b$", in which case it is stored
verbatim; after `change_password`, the stored password is the bcrypt hash
of the supplied one unless the supplied one starts with "$2b$", in which
case the update is skipped and the old stored value kept;
`verify_password p` is exactly bcrypt's check of `p` against the stored
field. -/
theorem C10_password_hashing_amended (bc : Bcrypt) (u : UserRec) (pw p : String)
    (hrole : u.role ∈ (["Admin", "BusinessOwner", "Staff"] : List String))
    (hmark : strHasStart (bc.hashpw u.password) "$2b$" = true) :
    (strHasStart u.password "$2b$" = false →
      hash_password bc u = .ok { u with password := bc.hashpw u.password } ∧
      strHasStart (bc.hashpw u.password) "$2b$" = true) ∧
    (strHasStart u.password "$2b$" = true → hash_password bc u = .ok u) ∧
    (strHasStart pw "$2b$" = false →
      (change_password bc u pw).password = bc.hashpw pw) ∧
    (strHasStart pw "$2b$" = true → change_password bc u pw = u) ∧
    verify_password bc u p = bc.checkpw p u.password := by
  refine ⟨?_, ?_, ?_, ?_, rfl⟩
  · intro hnot
    refine ⟨?_, hmark⟩
    unfold hash_password
    rw [if_neg (by simp [hrole]), if_pos (by simp [hnot])]
  · intro hyes
    unfold hash_password
    rw [if_neg (by simp [hrole]), if_neg (by simp [hyes])]
  · intro hnot
    unfold change_password
    rw [if_pos (by simp [hnot])]
  · intro hyes
    unfold change_password
    rw [if_neg (by simp [hyes])]

/-- Witness for C10's amended statement with the concrete bcrypt stand-in. -/
theorem C10_password_hashing_amended_witness :
    (strHasStart "pw" "$2b$" = false →
      hash_password bcFixture ⟨"pw", "Staff"⟩ =
        .ok ⟨bcFixture.hashpw "pw", "Staff"⟩ ∧
      strHasStart (bcFixture.hashpw "pw") "$2b$" = true) ∧
    (strHasStart "pw" "$2b$" = true →
      hash_password bcFixture ⟨"pw", "Staff"⟩ = .ok ⟨"pw", "Staff"⟩) ∧
    (strHasStart "new" "$2b$" = false →
      (change_password bcFixture ⟨"pw", "Staff"⟩ "new").password =
        bcFixture.hashpw "new") ∧
    (strHasStart "new" "$2b$" = true →
      change_password bcFixture ⟨"pw", "Staff"⟩ "new" = ⟨"pw", "Staff"⟩) ∧
    verify_password bcFixture ⟨"pw", "Staff"⟩ "q" = bcFixture.checkpw "q" "pw" :=
  C10_password_hashing_amended bcFixture ⟨"pw", "Staff"⟩ "new" "q"
    (by decide) (by decide)

end QRApp
